import Mathlib

/-!
# CCDC prototype (`not-validated-prototype-ccdc/src/ccdc.c`)

A shallow embedding of the `main` routine of the change-detection prototype:
the scene-list read loop, the two ingestion loops that open one file per scene
and band slot, and the coverage check that follows them.  C `int` values that
are known to be non-negative are natural numbers; conversions to
`unsigned int` are written with an explicit `% 2 ^ 32`.
-/

namespace Ccdc

/-! ## Constants of the translation unit -/

/-- Number of detection bands (`#define NUM_LASSO_BANDS 5`). -/
def NUM_LASSO_BANDS : Nat := 5

/-- Number of band slots per scene (`#define TOTAL_BANDS 8`). -/
def TOTAL_BANDS : Nat := 8

/-- Capacity of the first dimension of `fp_bin` (`#define MAX_SCENES 63`). -/
def MAX_SCENES : Nat := 63

/-- Detection band list, `int lasso_band_list[NUM_LASSO_BANDS] = {2, 3, 4, 5, 7}`. -/
def lasso_band_list : List Nat := [2, 3, 4, 5, 7]

/-- Local `min_num_c = 4` of `main`. -/
def min_num_c : Nat := 4

/-- Local `mid_num_c = 6` of `main`. -/
def mid_num_c : Nat := 6

/-- Local `max_num_c = 8` of `main`. -/
def max_num_c : Nat := 8

/-- Local `n_times = 3` of `main`: clear observations per coefficient. -/
def n_times : Nat := 3

/-- Size in bytes of `short int`, the element type of `buf`. -/
def SIZEOF_SHORT : Nat := 2

/-- Size in bytes of `unsigned char`, the element type of `fmask_buf`. -/
def SIZEOF_UCHAR : Nat := 1

/-- Modulus of the C type `unsigned int`. -/
def UINT_MOD : Nat := 2 ^ 32

/-- Largest value of the C type `int`. -/
def INT_MAX : Nat := 2 ^ 31 - 1

/-- Modulus of the C type `size_t`, the type of `sizeof` and of a product with it. -/
def SIZE_MOD : Nat := 2 ^ 64

/-! ## The coverage check (lines 323-332) -/

/-- One iteration of `if (fmask_buf[i] < 255) fmask_sum++;`. -/
def fmask_step (fmask_sum v : Nat) : Nat :=
  if v < 255 then fmask_sum + 1 else fmask_sum

/-- The loop `for (i = 0; i < num_scenes; i++) if (fmask_buf[i] < 255) fmask_sum++;`
started from the initial value `fmask_sum = 0`; the list holds the `num_scenes`
entries of `fmask_buf` in index order. -/
def fmask_sum (fmask_buf : List Nat) : Nat :=
  fmask_buf.foldl fmask_step 0

/-- Scene `i` is counted when the iteration for index `i` increments `fmask_sum`. -/
def counted (fmask_buf : List Nat) (i : Nat) : Prop :=
  fmask_sum (fmask_buf.take (i + 1)) = fmask_sum (fmask_buf.take i) + 1

instance (fmask_buf : List Nat) (i : Nat) : Decidable (counted fmask_buf i) := by
  unfold counted; infer_instance

/-- The cast `(uint) 0.5`: the conversion of the constant 0.5 = 1/2 to an
unsigned integer discards the fractional part. -/
def uint_of_half : Nat := 1 / 2

/-- Right-hand side of the comparison, `(uint) 0.5 * num_scenes`: the cast binds
tighter than the product, `num_scenes` is converted to `unsigned int` and the
product is taken modulo `2 ^ 32`. -/
def coverage_threshold (num_scenes : Nat) : Nat :=
  (uint_of_half * (num_scenes % UINT_MOD)) % UINT_MOD

/-- The test `fmask_sum < (uint) 0.5 * num_scenes`; the left operand is converted
to `unsigned int` for the comparison. -/
def coverage_error (fmask_sum num_scenes : Nat) : Bool :=
  decide (fmask_sum % UINT_MOD < coverage_threshold num_scenes)

/-- The value passed to `printf` in the else branch, `fmask_sum / num_scenes`,
a quotient of two `int` operands. -/
def clear_fraction (fmask_sum num_scenes : Nat) : Nat :=
  fmask_sum / num_scenes

/-- Lines 323-332: count, then either return the error
"Not enough clear-sky pisels" or print the fraction and go on. -/
def coverage_check (fmask_buf : List Nat) (num_scenes : Nat) : Except String Nat :=
  if coverage_error (fmask_sum fmask_buf) num_scenes then
    Except.error "Not enough clear-sky pisels"
  else
    Except.ok (clear_fraction (fmask_sum fmask_buf) num_scenes)

/-- Clear-sky reading of a cfmask value, following the glossary: not flagged
cloud (4), shadow (2) or fill (255). -/
def spec_clear_sky (v : Nat) : Prop := v ≠ 4 ∧ v ≠ 2 ∧ v ≠ 255

instance (v : Nat) : Decidable (spec_clear_sky v) := by
  unfold spec_clear_sky; infer_instance

/-! ## The ingestion loops (lines 186-321) -/

/-- Fields of `Input_meta_t` that `main` reads in the ingestion loops. -/
structure Input_meta_t where
  lines : Nat
  samples : Nat
deriving DecidableEq, Repr

/-- Modelled from the spec: `sub_string` is declared in `utilities.h`, outside
the source file; `sub_string (source, start, length)` is the piece of `source`
of `length` characters that begins at position `start`. -/
def sub_string (source : String) (start length : Nat) : String :=
  String.mk ((source.data.drop start).take length)

/-- The libc `atoi` on an unsigned decimal prefix (the argument here is at most
one character long, so sign and leading blanks play no part). -/
def atoi (s : String) : Nat :=
  (s.data.takeWhile Char.isDigit).foldl (fun acc c => acc * 10 + (c.toNat - 48)) 0

/-- The assignment `landsat_number = atoi (sub_string (scene, 2, 1))`. -/
def landsat_number (scene : String) : Nat :=
  atoi (sub_string scene 2 1)

/-- The `sprintf (filename, ...)` cascade for band slot `k` of a scene
(lines 196-223, repeated verbatim at lines 261-288). -/
def band_filename (scene : String) (k : Nat) : String :=
  if landsat_number scene ≠ 8 then
    if k = 5 then scene ++ "_toa_band6.img"
    else if k = 7 then scene ++ "_cfmask.img"
    else scene ++ "_sr_band" ++ toString (k + 1) ++ ".img"
  else
    if k = 5 then scene ++ "_toa_band10.img"
    else if k = 7 then scene ++ "_cfmask.img"
    else if k = 6 then scene ++ "_sr_band" ++ toString (k + 1) ++ ".img"
    else scene ++ "_sr_band" ++ toString (k + 2) ++ ".img"

/-- The subexpression `row * meta->samples + col` of the seek offset, evaluated
in `int` (`row` and `col` are declared `int`, `meta->samples` is printed with
`%d`): `none` when the product or the sum lies above `INT_MAX`, where C leaves
the result undefined. -/
def pixel_index (row samples col : Nat) : Option Nat :=
  if row * samples ≤ INT_MAX ∧ row * samples + col ≤ INT_MAX then
    some (row * samples + col)
  else none

/-- The offset argument of `fseek`, `(row * meta->samples + col) * sizeof (T)`:
the `int` index is converted to `size_t` and the product is taken in `size_t`. -/
def seek_offset (row samples col size : Nat) : Option Nat :=
  (pixel_index row samples col).map fun p => (p * size) % SIZE_MOD

/-- The text that the `sprintf` cascade puts after the scene name for band slot
`k`, for a Landsat 8 scene and for any other. -/
def band_suffix (landsat8 : Bool) (k : Nat) : String :=
  if landsat8 = false then
    if k = 5 then "_toa_band6.img"
    else if k = 7 then "_cfmask.img"
    else "_sr_band" ++ toString (k + 1) ++ ".img"
  else
    if k = 5 then "_toa_band10.img"
    else if k = 7 then "_cfmask.img"
    else if k = 6 then "_sr_band" ++ toString (k + 1) ++ ".img"
    else "_sr_band" ++ toString (k + 2) ++ ".img"

/-- Destination pointer handed to `read_raw_binary`: `&buf[scene][k]` or
`&fmask_buf[scene]`. -/
inductive Dest where
  | buf (scene : Nat) (k : Nat)
  | fmask_buf (scene : Nat)
deriving DecidableEq, Repr

/-- What one pass through the innermost loop body does: the `scene_list` entry
it names, the `fp_bin` cell it opens (and how many times it calls
`open_raw_binary` on it), the cells it uses to seek, read and close, the seek
offset (`none` where the `int` arithmetic leaves it undefined), the three size
arguments of `read_raw_binary` and the destination. -/
structure BandAccess where
  scene_index : Nat
  band : Nat
  filename : String
  open_fp : Nat × Nat
  opens : Nat
  seek_fp : Nat × Nat
  offset : Option Nat
  read_fp : Nat × Nat
  nlines : Nat
  nsamps : Nat
  size : Nat
  dest : Dest
  close_fp : Nat × Nat
deriving DecidableEq, Repr

/-- Body of the chunked loop (lines 196-252) for loop variables `m`, `i`, `k`.
A failed open or read only prints a message there, so the body is the same
sequence of calls in every case. -/
def first_loop_body (scene_list : List String) (info : Input_meta_t) (row col : Nat)
    (m i k : Nat) : BandAccess :=
  let filename := band_filename (scene_list.getD (m * MAX_SCENES + i) "") k
  if k ≠ TOTAL_BANDS - 1 then
    BandAccess.mk (m * MAX_SCENES + i) k filename (i, k) 1
      (i, k) (seek_offset row info.samples col SIZEOF_SHORT)
      (i, k) info.lines info.samples SIZEOF_SHORT (Dest.buf (m * MAX_SCENES + i) k)
      (i, k)
  else
    BandAccess.mk (m * MAX_SCENES + i) k filename (i, k) 1
      (i, k) (seek_offset row info.samples col SIZEOF_UCHAR)
      (i, k) info.lines info.samples SIZEOF_UCHAR (Dest.fmask_buf (m * MAX_SCENES + i))
      (i, k)

/-- Body of the remainder loop (lines 261-319) for loop variables `i`, `k`; the
branch of the seven value slots opens the file a second time, the mask branch
seeks on `fp_bin[i][TOTAL_BANDS-1]` and reads from `fp_bin[i][k]`. -/
def second_loop_body (scene_list : List String) (info : Input_meta_t) (row col : Nat)
    (loop_number i k : Nat) : BandAccess :=
  let filename := band_filename (scene_list.getD (i + loop_number * MAX_SCENES) "") k
  if k ≠ TOTAL_BANDS - 1 then
    BandAccess.mk (i + loop_number * MAX_SCENES) k filename (i, k) 2
      (i, k) (seek_offset row info.samples col SIZEOF_SHORT)
      (i, k) info.lines info.samples SIZEOF_SHORT (Dest.buf (loop_number * MAX_SCENES + i) k)
      (i, k)
  else
    BandAccess.mk (i + loop_number * MAX_SCENES) k filename (i, k) 1
      (i, TOTAL_BANDS - 1) (seek_offset row info.samples col SIZEOF_UCHAR)
      (i, k) info.lines info.samples SIZEOF_UCHAR
      (Dest.fmask_buf (loop_number * MAX_SCENES + i))
      (i, k)

/-- The chunked loop `for m < loop_number, for i < MAX_SCENES, for k < TOTAL_BANDS`. -/
def first_loop (scene_list : List String) (info : Input_meta_t) (row col : Nat)
    (loop_number : Nat) : List BandAccess :=
  (List.range loop_number).flatMap fun m =>
    (List.range MAX_SCENES).flatMap fun i =>
      (List.range TOTAL_BANDS).map fun k => first_loop_body scene_list info row col m i k

/-- The remainder loop `for i < num_scenes - loop_number * MAX_SCENES,
for k < TOTAL_BANDS`; a negative bound runs no iteration, as the truncated
subtraction does. -/
def second_loop (scene_list : List String) (info : Input_meta_t) (row col : Nat)
    (num_scenes loop_number : Nat) : List BandAccess :=
  (List.range (num_scenes - loop_number * MAX_SCENES)).flatMap fun i =>
    (List.range TOTAL_BANDS).map fun k =>
      second_loop_body scene_list info row col loop_number i k

/-- Both ingestion loops in program order. -/
def ingest (scene_list : List String) (info : Input_meta_t) (row col : Nat)
    (num_scenes loop_number : Nat) : List BandAccess :=
  first_loop scene_list info row col loop_number ++
    second_loop scene_list info row col num_scenes loop_number

/-- What the refinement compares between the two loop shapes: scene, band slot,
file name, seek offset and destination of an access. -/
def selection (a : BandAccess) : Nat × Nat × String × Option Nat × Dest :=
  (a.scene_index, a.band, a.filename, a.offset, a.dest)

/-- Reference for the refinement, body for scene `s` and band slot `k`: the
file of that slot, the offset of the pixel in it and the cell of `buf` or of
`fmask_buf` that belongs to the scene. -/
def single_loop_body (scene_list : List String) (info : Input_meta_t) (row col : Nat)
    (s k : Nat) : Nat × Nat × String × Option Nat × Dest :=
  if k ≠ TOTAL_BANDS - 1 then
    (s, k, band_filename (scene_list.getD s "") k,
      seek_offset row info.samples col SIZEOF_SHORT, Dest.buf s k)
  else
    (s, k, band_filename (scene_list.getD s "") k,
      seek_offset row info.samples col SIZEOF_UCHAR, Dest.fmask_buf s)

/-- Reference for the refinement: a single loop over the scenes
`0 .. num_scenes-1` and, inside it, over the band slots. -/
def single_loop (scene_list : List String) (info : Input_meta_t) (row col : Nat)
    (num_scenes : Nat) : List (Nat × Nat × String × Option Nat × Dest) :=
  (List.range num_scenes).flatMap fun s =>
    (List.range TOTAL_BANDS).map fun k => single_loop_body scene_list info row col s k

/-- Scenes in the order the loops reach them: each scene iteration starts with
band slot 0, so the accesses of slot 0 list the visited scenes one by one. -/
def visited_scenes (trace : List BandAccess) : List Nat :=
  (trace.filter fun a => decide (a.band = 0)).map fun a => a.scene_index

/-- Modelled from the spec: `read_raw_binary` belongs to the raw-binary I/O
library, outside the source file; called as
`read_raw_binary (fp, nlines, nsamps, size, dest)` it asks the stream for
`nlines * nsamps` elements of `size` bytes each. -/
def requested_elements (a : BandAccess) : Nat :=
  a.nlines * a.nsamps

/-- Number of elements the destination of an access can hold: `&buf[s][k]`
and `&fmask_buf[s]` each designate one array element. -/
def dest_elements (_d : Dest) : Nat := 1

/-- Every index of one access is inside its array: `fp_bin[MAX_SCENES][TOTAL_BANDS]`,
`buf[num_scenes][TOTAL_BANDS-1]`, `fmask_buf[num_scenes]` and the `num_scenes`
names of `scene_list`. -/
def in_bounds (num_scenes : Nat) (a : BandAccess) : Prop :=
  (a.open_fp.1 < MAX_SCENES ∧ a.open_fp.2 < TOTAL_BANDS) ∧
  (a.seek_fp.1 < MAX_SCENES ∧ a.seek_fp.2 < TOTAL_BANDS) ∧
  (a.read_fp.1 < MAX_SCENES ∧ a.read_fp.2 < TOTAL_BANDS) ∧
  (a.close_fp.1 < MAX_SCENES ∧ a.close_fp.2 < TOTAL_BANDS) ∧
  a.band < TOTAL_BANDS ∧
  a.scene_index < num_scenes ∧
  (match a.dest with
   | Dest.buf s k => s < num_scenes ∧ k < TOTAL_BANDS - 1
   | Dest.fmask_buf s => s < num_scenes)

instance (num_scenes : Nat) (a : BandAccess) : Decidable (in_bounds num_scenes a) := by
  unfold in_bounds
  cases a.dest <;> infer_instance

/-! ## The routine `main` up to its first `exit` (lines 102-378) -/

/-- Everything `main` obtains from outside: the results of the helpers declared
in the missing headers, the content of `scene_list.txt` as the sequence of names
that successive `fscanf (fd, "%s", ...)` calls yield (`none` when `fopen` fails),
the constant `MAX_SCENE_LIST` of `const.h`, the values found in the locals
`num_scenes` and `loop_number` where `main` reads them without having assigned
them, and the content of the band files. -/
structure World where
  get_args : Option (Nat × Nat)
  scene_list_alloc : Bool
  scene_list_exists : Bool
  MAX_SCENE_LIST : Nat
  num_scenes_unset : Nat
  loop_number_unset : Nat
  scene_list_txt : Option (List String)
  sdate_alloc : Bool
  sort_scene_based_on_year_doy : List String → Option (List String)
  meta_alloc : Bool
  read_envi_header : String → Option Input_meta_t
  fmask_unset : Nat → Nat
  pixel : String → Option Nat → Nat
  build_modtran_input : Bool

/-- How `main` ends: through `RETURN_ERROR` with its message, or at the
`exit (0)` of line 378. -/
inductive Status where
  | error (msg : String)
  | exit_success
deriving DecidableEq, Repr

/-- Outcome of a run: how it ended and the band-file accesses it made, in order. -/
structure Run where
  status : Status
  trace : List BandAccess

/-- Value of `num_scenes` after lines 121-128: `MAX_SCENE_LIST` when
`scene_list.txt` exists; otherwise `create_scene_list` receives the variable by
value and it keeps whatever it held. -/
def num_scenes_of (w : World) : Nat :=
  if w.scene_list_exists then w.MAX_SCENE_LIST else w.num_scenes_unset

/-- The read loop of lines 136-144 over the names left in the file: `none` is
the `RETURN_ERROR` taken when `fscanf` reports `EOF`; the two statements after
it (`num_scenes = i; break;`) are never reached. -/
def scan_scene_list : Nat → List String → Option (List String)
  | 0, _ => some []
  | _ + 1, [] => none
  | n + 1, name :: rest => (scan_scene_list n rest).map (fun l => name :: l)

/-- Content of `fmask_buf[s]` once the accesses of `trace` are done: the first
element of the last read whose destination is `&fmask_buf[s]`, else the value
the unset cell held. -/
def fmask_after (w : World) (trace : List BandAccess) (s : Nat) : Nat :=
  trace.foldl
    (fun v a => if a.dest = Dest.fmask_buf s then w.pixel a.filename a.offset % 256 else v)
    (w.fmask_unset s % 256)

/-- Modelled from the spec: the macro `RETURN_ERROR` is defined in a header
outside the source file; it logs its message and returns from `main` with the
given status, which is how the run-level failures of section 7 abort the run.
The second argument is the list of band-file accesses made so far. -/
def RETURN_ERROR (msg : String) (trace : List BandAccess) : Run :=
  Run.mk (Status.error msg) trace

/-- The routine `main` from the call of `get_args` to the `exit (0)` of line 378.
The band files are touched by the two ingestion loops only. -/
def main (w : World) : Run :=
  match w.get_args with
  | none => RETURN_ERROR "calling get_args" []
  | some (row, col) =>
    if w.scene_list_alloc = false then
      RETURN_ERROR "Allocating scene_list memory" []
    else
      let num_scenes := num_scenes_of w
      match w.scene_list_txt with
      | none => RETURN_ERROR "Opening scene_list file" []
      | some names =>
        match scan_scene_list num_scenes names with
        | none => RETURN_ERROR "Reading scene_list file" []
        | some scene_list =>
          if w.sdate_alloc = false then
            RETURN_ERROR "ERROR allocating memory" []
          else
            match w.sort_scene_based_on_year_doy scene_list with
            | none => RETURN_ERROR "Calling sort_scene_based_on_year_jday" []
            | some sorted =>
              if w.meta_alloc = false then
                RETURN_ERROR "allocating Input data structure" []
              else
                match w.read_envi_header (sorted.getD 0 "") with
                | none => RETURN_ERROR "Calling sort_scene_based_on_year_jday" []
                | some info =>
                  let trace := ingest sorted info row col num_scenes w.loop_number_unset
                  let fmask_buf := (List.range num_scenes).map (fmask_after w trace)
                  match coverage_check fmask_buf num_scenes with
                  | Except.error msg => RETURN_ERROR msg trace
                  | Except.ok _ =>
                    if w.build_modtran_input = false then
                      RETURN_ERROR "Building MODTRAN input\n" trace
                    else
                      Run.mk Status.exit_success trace

/-- A run environment in which every helper succeeds: `scene_list.txt` exists
and yields `names`, `MAX_SCENE_LIST` is `max_scene_list`, the sort leaves the
list as it is, the raster is one pixel, every mask and band value read is
`mask`, and `loop_number` holds `max_scene_list / MAX_SCENES`. -/
def sample_world (max_scene_list : Nat) (names : List String) (mask : Nat) : World :=
  World.mk (some (0, 0)) true true max_scene_list 0 (max_scene_list / MAX_SCENES)
    (some names) true some true (fun _ => some (Input_meta_t.mk 1 1)) (fun _ => 0)
    (fun _ _ => mask) true

/-! ## Parts of the design that the source file only declares -/

/-- Modelled from the spec: the caller that applies the order selection policy
of section 4.2 is not in the source file, which only declares `min_num_c`,
`mid_num_c`, `max_num_c`, `n_times` and `num_c`.  The policy: order
`min_num_c` while the window has fewer than `n_times * mid_num_c` clear
observations, `mid_num_c` once at least `n_times * mid_num_c` are available,
`max_num_c` once at least `n_times * max_num_c` are available. -/
def select_num_c (n : Nat) : Nat :=
  if n_times * max_num_c ≤ n then max_num_c
  else if n_times * mid_num_c ≤ n then mid_num_c
  else min_num_c

/-- The run configuration values `t_cg`, `t_max_cg` and `conse` that `main`
declares and hands to `get_args`. -/
structure Config where
  t_cg : ℚ
  t_max_cg : ℚ
  conse : Nat

/-- Modelled from the spec: the change detector is not in the source file, which
only declares `t_cg`, `t_max_cg` and `conse`.  One MONITORING step of section
4.3 on the combined statistic of the next observation, given the run-length
counter: `none` is the transition to BREAK_CONFIRMED (the counter reaches
`conse`, or the statistic exceeds `t_max_cg`); otherwise the new counter, which
is reset to zero when the statistic does not exceed `t_cg`. -/
def monitor_step (cfg : Config) (counter : Nat) (stat : ℚ) : Option Nat :=
  if cfg.t_max_cg < stat then none
  else if cfg.t_cg < stat then
    if cfg.conse ≤ counter + 1 then none else some (counter + 1)
  else some 0

/-- Local `mini_yrs = 1` of `main`: minimum number of years for the
initialization of a model. -/
def mini_yrs : Nat := 1

/-- Local `num_yrs = 365.25` of `main`: number of days per year. -/
def num_yrs : ℚ := 365.25

/-- Local `t_ws = 0.95` of `main`: no change detection for permanent water pixels. -/
def t_ws : ℚ := 0.95

/-- Local `t_sn = 0.6` of `main`: no change detection for permanent snow pixels. -/
def t_sn : ℚ := 0.6

/-- Local `t_cs = 0.6` of `main`: Fmask fails threshold. -/
def t_cs : ℚ := 0.6

/-- Modelled from the spec: one clear observation as the change detector of
section 4.3 sees it, which the source file does not contain: its date in days
and its combined detection-band statistic against the model that is active when
it is tested.  The fit and the residuals behind the statistic are floating-point
computations and are taken as given, as the latency property of section 8 does. -/
structure Observation where
  date : ℚ
  stat : ℚ

/-- Modelled from the spec: what the detector of section 4.3 receives for one
pixel: the clear observations in date order, the summary fractions of section
4.1 (permanent water, permanent snow, Fmask fail) and, for the fit of the window
of the observations `start .. i` at `num_c = 4`, the statistic of the window's own
residuals (`window_residual start i`; the fit itself is not modelled). -/
structure Pixel where
  obs : List Observation
  water : ℚ
  snow : ℚ
  fmask_fail : ℚ
  window_residual : Nat → Nat → ℚ

/-- Modelled from the spec: the permanent water/snow suppression of section 4.3:
water fraction at least `t_ws`, snow fraction at least `t_sn` or Fmask-fail
fraction at least `t_cs`; change testing is then bypassed for the pixel. -/
def suppressed (px : Pixel) : Prop :=
  t_ws ≤ px.water ∨ t_sn ≤ px.snow ∨ t_cs ≤ px.fmask_fail

instance (px : Pixel) : Decidable (suppressed px) := by
  unfold suppressed; infer_instance

/-- Modelled from the spec: the two states of section 4.3 in which the detector
waits for the next observation: INITIALIZING with the index at which its window
starts, MONITORING with the run-length counter.  BREAK_CONFIRMED is the
transition that reports a break and re-enters INITIALIZING; FINALIZED is the end
of the series. -/
inductive DetectorState where
  | INITIALIZING (start : Nat)
  | MONITORING (counter : Nat)
deriving DecidableEq, Repr

/-- Modelled from the spec: one step of the state machine of section 4.3 on
observation `i`; the result is the next state and whether a break is confirmed
at `i`.
INITIALIZING: the window `start .. i` grows until it holds at least
`min_num_c * n_times` observations and spans at least `mini_yrs * num_yrs` days;
then it is fitted, and if its own residuals exceed `t_max_cg` the start slides
forward by one observation, otherwise MONITORING begins with the counter at zero.
MONITORING: `monitor_step` on the statistic of the observation; on
BREAK_CONFIRMED the detector re-enters INITIALIZING with a window that starts at
the first observation of the anomalous run. -/
def detector_step (cfg : Config) (px : Pixel) (i : Nat) (o : Observation) :
    DetectorState → DetectorState × Bool
  | DetectorState.INITIALIZING start =>
    if min_num_c * n_times ≤ i + 1 - start ∧
        (mini_yrs : ℚ) * num_yrs ≤ o.date - (px.obs.getD start o).date then
      if cfg.t_max_cg < px.window_residual start i then
        (DetectorState.INITIALIZING (start + 1), false)
      else (DetectorState.MONITORING 0, false)
    else (DetectorState.INITIALIZING start, false)
  | DetectorState.MONITORING counter =>
    match monitor_step cfg counter o.stat with
    | none => (DetectorState.INITIALIZING (i - counter), true)
    | some c => (DetectorState.MONITORING c, false)

/-- Modelled from the spec: the state machine over the observations still to
come, `i` being the index of the next one: the indices at which a break is
confirmed, in order, and the state in which the series is left (FINALIZED when
the list is exhausted). -/
def detector_run (cfg : Config) (px : Pixel) :
    Nat → DetectorState → List Observation → List Nat × DetectorState
  | _, st, [] => ([], st)
  | i, st, o :: rest =>
    let r := detector_run cfg px (i + 1) (detector_step cfg px i o st).1 rest
    (if (detector_step cfg px i o st).2 then i :: r.1 else r.1, r.2)

/-- Modelled from the spec: the breaks the detector of section 4.3 confirms for
a pixel.  A suppressed pixel is not tested at all; a series of fewer than
`min_num_c * n_times` clear observations skips MONITORING (insufficient data);
otherwise the state machine runs from INITIALIZING at observation 0. -/
def confirmed_breaks (cfg : Config) (px : Pixel) : List Nat :=
  if suppressed px then []
  else if px.obs.length < min_num_c * n_times then []
  else (detector_run cfg px 0 (DetectorState.INITIALIZING 0) px.obs).1

/-- The latency property of section 8 for one configuration, one pixel and one
index `k`: when no statistic before index `k` is above `t_cg` and every statistic
from index `k` onward is, a break is confirmed at or before observation
`k + conse - 1` and no break is confirmed before index `k`. -/
def break_latency_property (cfg : Config) (px : Pixel) (k : Nat) : Prop :=
  (∀ o ∈ px.obs.take k, o.stat ≤ cfg.t_cg) → (∀ o ∈ px.obs.drop k, cfg.t_cg < o.stat) →
    (∃ j ∈ confirmed_breaks cfg px, j ≤ k + cfg.conse - 1) ∧
      (∀ j ∈ confirmed_breaks cfg px, k ≤ j)

/-- A state with no anomalous run under way: INITIALIZING, or MONITORING with
the counter at zero. -/
def calm (st : DetectorState) : Prop :=
  match st with
  | DetectorState.INITIALIZING _ => True
  | DetectorState.MONITORING c => c = 0

/-- MONITORING is only reached once `min_num_c * n_times` observations have
been consumed; `i` is the number consumed so far. -/
def warmed (st : DetectorState) (i : Nat) : Prop :=
  match st with
  | DetectorState.INITIALIZING _ => True
  | DetectorState.MONITORING _ => min_num_c * n_times ≤ i

/-- A series for trying the detector: one observation every 40 days with the
given statistics. -/
def sample_series (stats : List ℚ) : List Observation :=
  (List.range stats.length).zipWith (fun i s => Observation.mk (40 * i) s) stats

/-- A pixel for trying the detector: the series above, the given permanent-water
fraction, no snow, no Fmask failure, and initialization windows whose own
residuals are zero. -/
def sample_pixel (water : ℚ) (stats : List ℚ) : Pixel :=
  Pixel.mk (sample_series stats) water 0 0 (fun _ _ => 0)

/-- Thirteen quiet observations followed by three above `t_cg = 10`. -/
def step_series : List ℚ := [1, 1, 1, 1, 1, 1, 1, 1, 1, 1, 1, 1, 1, 11, 12, 13]

/-! ## The coverage check: what is counted and what the test does -/

theorem fmask_sum_append_one (l : List Nat) (v : Nat) :
    fmask_sum (l ++ [v]) = fmask_step (fmask_sum l) v := by
  simp [fmask_sum, List.foldl_append]

theorem coverage_threshold_zero (num_scenes : Nat) : coverage_threshold num_scenes = 0 := by
  simp [coverage_threshold, uint_of_half]

/-- The comparison of line 329 is false whatever the count and the number of
scenes are: its right-hand side is the unsigned value zero. -/
theorem coverage_error_false (count num_scenes : Nat) :
    coverage_error count num_scenes = false := by
  simp [coverage_error, coverage_threshold_zero]

/-- The count of the loop at lines 324-328 is the number of mask values below 255. -/
theorem fmask_sum_eq_countP (l : List Nat) :
    fmask_sum l = l.countP (fun v => decide (v < 255)) := by
  induction l using List.reverseRecOn with
  | nil => rfl
  | append_singleton l v ih =>
    rw [fmask_sum_append_one, ih, List.countP_append]
    by_cases h : v < 255 <;> simp [fmask_step, h]

/-- C1, at the input that shows the defect: four scenes, all of them fill (255).
The count is 0, which is below one half of 4, yet the coverage check does not
return the error: it takes the printing branch, and a run of `main` on such
scenes goes on to the `exit (0)` after `build_modtran_input`. -/
theorem coverage_check_all_fill :
    fmask_sum [255, 255, 255, 255] = 0 ∧ 2 * fmask_sum [255, 255, 255, 255] < 4 ∧
      coverage_check [255, 255, 255, 255] 4 = Except.ok 0 ∧
      (main (sample_world 4 ["LE7a", "LE7b", "LE7c", "LE7d"] 255)).status =
        Status.exit_success :=
  ⟨by decide, by decide, rfl, by decide⟩

/-- C2 as stated fails: a cloud scene (mask value 4) and a shadow
scene (mask value 2) are both counted towards `fmask_sum`, although neither is
clear sky in the glossary's sense. -/
theorem counted_cloud_and_shadow :
    counted [4, 2] 0 ∧ ¬ spec_clear_sky 4 ∧ counted [4, 2] 1 ∧ ¬ spec_clear_sky 2 ∧
      fmask_sum [4, 2] = 2 := by
  decide

/-- C2, amended: scene `i` is counted towards `fmask_sum` if and only if it is a
scene of the buffer and its mask value is below 255, that is, it is not fill;
clear land (0), water (1), shadow (2), snow (3) and cloud (4) are all counted. -/
theorem counted_iff_not_fill (fmask_buf : List Nat) (i : Nat) :
    (counted fmask_buf i ↔ ∃ v, fmask_buf[i]? = some v ∧ v < 255) ∧
      (∀ v, v ∈ [0, 1, 2, 3, 4] → fmask_step 0 v = 1) ∧ fmask_step 0 255 = 0 := by
  refine ⟨?_, by decide, by decide⟩
  unfold counted
  rw [List.take_succ]
  cases h : fmask_buf[i]? with
  | none => simp
  | some v =>
    simp only [Option.toList, fmask_sum_append_one, fmask_step]
    by_cases hv : v < 255 <;> simp [hv]

/-- C4, at the input that shows the defect: with 3 of 4 scenes counted the value
handed to `printf` is the truncated quotient 0, not the ratio 3/4. -/
theorem clear_fraction_truncates :
    fmask_sum [0, 0, 0, 255] = 3 ∧
      coverage_check [0, 0, 0, 255] 4 = Except.ok 0 ∧
      ((clear_fraction (fmask_sum [0, 0, 0, 255]) 4 : Nat) : ℚ) ≠
        (fmask_sum [0, 0, 0, 255] : ℚ) / 4 := by
  refine ⟨by decide, rfl, ?_⟩
  have h : fmask_sum [0, 0, 0, 255] = 3 := by decide
  rw [h]
  norm_num [clear_fraction]

/-- The printed value is the ratio only in the two cases where the ratio is an
integer below two: it is 1 when every scene is counted and 0 otherwise. -/
theorem clear_fraction_zero_or_one (fmask_buf : List Nat) (h : 0 < fmask_buf.length) :
    clear_fraction (fmask_sum fmask_buf) fmask_buf.length =
      if fmask_sum fmask_buf = fmask_buf.length then 1 else 0 := by
  have hle : fmask_sum fmask_buf ≤ fmask_buf.length := by
    rw [fmask_sum_eq_countP]
    exact List.countP_le_length _
  unfold clear_fraction
  by_cases he : fmask_sum fmask_buf = fmask_buf.length
  · rw [if_pos he, he, Nat.div_self h]
  · rw [if_neg he]
    exact Nat.div_eq_of_lt (lt_of_le_of_ne hle he)

/-! ## Failure of the scene list -/

/-- C3: when `scene_list.txt` cannot be opened, or it is opened and the first
`fscanf` of the read loop reports end of file (the file holds no name and the
loop runs at least once), `main` ends with an error and has opened, sought or
read no band file. -/
theorem main_scene_list_failure (w : World)
    (h : w.scene_list_txt = none ∨ (w.scene_list_txt = some [] ∧ 0 < num_scenes_of w)) :
    (∃ msg, (main w).status = Status.error msg) ∧ (main w).trace = [] := by
  unfold main RETURN_ERROR
  cases hg : w.get_args with
  | none => exact ⟨⟨_, rfl⟩, rfl⟩
  | some rc =>
    obtain ⟨row, col⟩ := rc
    by_cases ha : w.scene_list_alloc = false
    · simp [ha]
    · rcases h with h | ⟨h, hn⟩
      · simp [ha, h]
      · obtain ⟨n, hn2⟩ : ∃ n, num_scenes_of w = n + 1 := ⟨num_scenes_of w - 1, by omega⟩
        simp [ha, h, hn2, scan_scene_list]

/-- C3 at a concrete run: an existing but empty `scene_list.txt` with
`MAX_SCENE_LIST = 3`. -/
theorem main_scene_list_failure_witness :
    ((sample_world 3 [] 0).scene_list_txt = none ∨
        ((sample_world 3 [] 0).scene_list_txt = some [] ∧
          0 < num_scenes_of (sample_world 3 [] 0))) ∧
      (∃ msg, (main (sample_world 3 [] 0)).status = Status.error msg) ∧
      (main (sample_world 3 [] 0)).trace = [] :=
  ⟨Or.inr ⟨rfl, by decide⟩,
    main_scene_list_failure (sample_world 3 [] 0) (Or.inr ⟨rfl, by decide⟩)⟩

/-! ## The two ingestion loops against a single loop -/

theorem range_chunks {β : Type} (f : Nat → List β) (c q : Nat) :
    ((List.range q).flatMap fun m => (List.range c).flatMap fun i => f (m * c + i)) =
      (List.range (q * c)).flatMap f := by
  induction q with
  | zero => simp
  | succ q ih =>
    rw [List.range_succ, List.flatMap_append, ih, List.flatMap_singleton, Nat.succ_mul,
      List.range_add, List.flatMap_append, List.flatMap_map]

theorem range_remainder {β : Type} (f : Nat → List β) (b n : Nat) (h : b ≤ n) :
    ((List.range b).flatMap f ++ (List.range (n - b)).flatMap fun i => f (i + b)) =
      (List.range n).flatMap f := by
  have hn : n = b + (n - b) := by omega
  conv_rhs => rw [hn, List.range_add, List.flatMap_append, List.flatMap_map]
  simp only [Nat.add_comm]

theorem selection_first_loop_body (scene_list : List String) (info : Input_meta_t)
    (row col m i k : Nat) :
    selection (first_loop_body scene_list info row col m i k) =
      single_loop_body scene_list info row col (m * MAX_SCENES + i) k := by
  unfold first_loop_body single_loop_body selection
  by_cases hk : k ≠ TOTAL_BANDS - 1 <;> simp [hk]

theorem selection_second_loop_body (scene_list : List String) (info : Input_meta_t)
    (row col q i k : Nat) :
    selection (second_loop_body scene_list info row col q i k) =
      single_loop_body scene_list info row col (i + q * MAX_SCENES) k := by
  unfold second_loop_body single_loop_body selection
  by_cases hk : k ≠ TOTAL_BANDS - 1 <;> simp [hk, Nat.add_comm]

theorem ingest_selection (scene_list : List String) (info : Input_meta_t)
    (row col num_scenes : Nat) :
    (ingest scene_list info row col num_scenes (num_scenes / MAX_SCENES)).map selection =
      single_loop scene_list info row col num_scenes := by
  unfold ingest first_loop second_loop single_loop
  simp only [List.map_append, List.map_flatMap, List.map_map, Function.comp_def,
    selection_first_loop_body, selection_second_loop_body]
  rw [range_chunks (fun s => (List.range TOTAL_BANDS).map fun k =>
    single_loop_body scene_list info row col s k) MAX_SCENES (num_scenes / MAX_SCENES)]
  exact range_remainder (fun s => (List.range TOTAL_BANDS).map fun k =>
    single_loop_body scene_list info row col s k) _ _ (Nat.div_mul_le_self _ _)

theorem visited_scenes_eq (trace : List BandAccess) :
    visited_scenes trace =
      ((trace.map selection).filter fun t => decide (t.2.1 = 0)).map fun t => t.1 := by
  unfold visited_scenes
  induction trace with
  | nil => rfl
  | cons a l ih =>
    simp only [List.filter_cons, List.map_cons, selection]
    by_cases h : a.band = 0 <;> simp [h, ih]

theorem single_loop_band_zero (scene_list : List String) (info : Input_meta_t)
    (row col num_scenes : Nat) :
    (((single_loop scene_list info row col num_scenes).filter
      fun t => decide (t.2.1 = 0)).map fun t => t.1) = List.range num_scenes := by
  induction num_scenes with
  | zero => rfl
  | succ n ih =>
    unfold single_loop at ih ⊢
    rw [List.range_succ, List.flatMap_append, List.filter_append, List.map_append, ih]
    simp [TOTAL_BANDS, List.range_succ, single_loop_body, List.filter_cons]

/-- C9: with `loop_number = num_scenes / MAX_SCENES` the chunked loop followed by
the remainder loop reaches the scenes `0, 1, ..., num_scenes-1`, each once and in
ascending order, and for every scene and band slot it selects the file name, the
seek offset and the destination that a single loop over the scenes selects. -/
theorem ingest_refines_single_loop (scene_list : List String) (info : Input_meta_t)
    (row col num_scenes : Nat) :
    visited_scenes (ingest scene_list info row col num_scenes (num_scenes / MAX_SCENES)) =
        List.range num_scenes ∧
      (ingest scene_list info row col num_scenes (num_scenes / MAX_SCENES)).map selection =
        single_loop scene_list info row col num_scenes := by
  refine ⟨?_, ingest_selection scene_list info row col num_scenes⟩
  rw [visited_scenes_eq, ingest_selection, single_loop_band_zero]

/-- C10: with `loop_number = num_scenes / MAX_SCENES` every access of the two
ingestion loops stays inside its arrays: first index of `fp_bin` below
`MAX_SCENES`, band index below `TOTAL_BANDS`, column of `buf` below
`TOTAL_BANDS - 1`, scene index into `buf`, `fmask_buf` and `scene_list` below
`num_scenes`. -/
theorem ingest_in_bounds (scene_list : List String) (info : Input_meta_t)
    (row col num_scenes : Nat) :
    ∀ a ∈ ingest scene_list info row col num_scenes (num_scenes / MAX_SCENES),
      in_bounds num_scenes a := by
  intro a ha
  unfold ingest first_loop second_loop at ha
  simp only [List.mem_append, List.mem_flatMap, List.mem_map, List.mem_range] at ha
  rcases ha with ⟨m, hm, i, hi, k, hk, rfl⟩ | ⟨i, hi, k, hk, rfl⟩
  · unfold first_loop_body in_bounds
    simp only [MAX_SCENES, TOTAL_BANDS] at hm hi hk ⊢
    split <;> (simp only []; omega)
  · unfold second_loop_body in_bounds
    simp only [MAX_SCENES, TOTAL_BANDS] at hi hk ⊢
    split <;> (simp only []; omega)

/-- C10 at a concrete access: 64 scenes, so one full chunk and a remainder of
one; the mask access of the last scene, made by the remainder loop. -/
theorem ingest_in_bounds_witness :
    in_bounds 64
      (second_loop_body (List.replicate 64 "LE7") (Input_meta_t.mk 1 1) 0 0 1 0 7) :=
  ingest_in_bounds (List.replicate 64 "LE7") (Input_meta_t.mk 1 1) 0 0 64 _
    (List.mem_append_right _ (by decide))

/-! ## The size of a read -/

/-- Every access of the ingestion loops hands the raster's `lines` and `samples`
to `read_raw_binary`, whatever the loop bounds are. -/
theorem ingest_requests_raster (scene_list : List String) (info : Input_meta_t)
    (row col num_scenes loop_number : Nat) :
    ∀ a ∈ ingest scene_list info row col num_scenes loop_number,
      requested_elements a = info.lines * info.samples := by
  intro a ha
  unfold ingest first_loop second_loop at ha
  simp only [List.mem_append, List.mem_flatMap, List.mem_map, List.mem_range] at ha
  rcases ha with ⟨m, _, i, _, k, _, rfl⟩ | ⟨i, _, k, _, rfl⟩
  · unfold first_loop_body requested_elements
    split <;> rfl
  · unfold second_loop_body requested_elements
    split <;> rfl

/-- C8, at the input that shows the defect: one scene of a raster of 2 lines and
2 samples.  Each of the eight reads asks for 4 elements, while its destination
is a single element of `buf` or `fmask_buf`. -/
theorem read_requests_whole_raster :
    (ingest ["LE70390032010263EDC00"] (Input_meta_t.mk 2 2) 0 0 1 0).map
      (fun a => (requested_elements a, dest_elements a.dest)) = List.replicate 8 (4, 1) := by
  decide

/-! ## Order selection and break latency, as the design describes them -/

/-- C7: with `min_num_c = 4`, `mid_num_c = 6`, `max_num_c = 8` and `n_times = 3`
the order for a window of `n` clear observations is 4 below 18, 6 from 18 up to
23 and 8 from 24 on; it never decreases when the window grows, so no window of a
series of fewer than 12 observations gets more than 4 and no window of a series
of fewer than 18 gets more than 6. -/
theorem select_num_c_thresholds (n : Nat) :
    (n < 18 → select_num_c n = 4) ∧ (18 ≤ n → n < 24 → select_num_c n = 6) ∧
      (24 ≤ n → select_num_c n = 8) ∧
      (∀ m, m ≤ n → select_num_c m ≤ select_num_c n) ∧
      (∀ m, m ≤ n → n < 12 → select_num_c m ≤ 4) ∧
      (∀ m, m ≤ n → n < 18 → select_num_c m ≤ 6) := by
  unfold select_num_c n_times max_num_c mid_num_c min_num_c
  refine ⟨fun h => ?_, fun h1 h2 => ?_, fun h => ?_, fun m hm => ?_, fun m hm h => ?_,
    fun m hm h => ?_⟩
  · rw [if_neg (by omega), if_neg (by omega)]
  · rw [if_neg (by omega), if_pos (by omega)]
  · rw [if_pos (by omega)]
  · split_ifs <;> omega
  · rw [if_neg (by omega), if_neg (by omega)]
  · rw [if_neg (by omega), if_neg (by omega)]
    omega

theorem detector_run_append (cfg : Config) (px : Pixel) (a b : List Observation) (i : Nat)
    (st : DetectorState) :
    detector_run cfg px i st (a ++ b) =
      ((detector_run cfg px i st a).1 ++
          (detector_run cfg px (i + a.length) (detector_run cfg px i st a).2 b).1,
        (detector_run cfg px (i + a.length) (detector_run cfg px i st a).2 b).2) := by
  induction a generalizing i st with
  | nil => simp [detector_run]
  | cons o a ih =>
    have hi : i + 1 + a.length = i + (a.length + 1) := by omega
    simp only [List.cons_append, detector_run, List.length_cons, List.append_eq, ih, hi]
    split <;> simp

theorem detector_step_quiet (cfg : Config) (px : Pixel) (i : Nat) (o : Observation)
    (st : DetectorState) (hmax : cfg.t_cg ≤ cfg.t_max_cg) (ho : o.stat ≤ cfg.t_cg) :
    (detector_step cfg px i o st).2 = false ∧ calm (detector_step cfg px i o st).1 := by
  cases st with
  | INITIALIZING s =>
    simp only [detector_step]
    split_ifs <;> simp [calm]
  | MONITORING c =>
    have h1 : ¬ cfg.t_max_cg < o.stat := not_lt.mpr (le_trans ho hmax)
    have h2 : ¬ cfg.t_cg < o.stat := not_lt.mpr ho
    simp [detector_step, monitor_step, h1, h2, calm]

theorem detector_run_quiet (cfg : Config) (px : Pixel) (l : List Observation) (i : Nat)
    (st : DetectorState) (hmax : cfg.t_cg ≤ cfg.t_max_cg) (hst : calm st)
    (hl : ∀ o ∈ l, o.stat ≤ cfg.t_cg) :
    (detector_run cfg px i st l).1 = [] ∧ calm (detector_run cfg px i st l).2 := by
  induction l generalizing i st with
  | nil => exact ⟨rfl, hst⟩
  | cons o l ih =>
    obtain ⟨hb, hc⟩ := detector_step_quiet cfg px i o st hmax (hl o (List.mem_cons_self _ _))
    have h := ih (i + 1) (detector_step cfg px i o st).1 hc
      (fun t ht => hl t (List.mem_cons_of_mem _ ht))
    simp only [detector_run, hb]
    exact h

theorem detector_run_loud (cfg : Config) (px : Pixel) (l : List Observation) (i c : Nat)
    (hc : c < cfg.conse) (hlen : cfg.conse - c ≤ l.length)
    (hl : ∀ o ∈ l, cfg.t_cg < o.stat) :
    ∃ j ∈ (detector_run cfg px i (DetectorState.MONITORING c) l).1,
      i ≤ j ∧ j + c + 1 ≤ i + cfg.conse := by
  induction l generalizing i c with
  | nil => simp at hlen; omega
  | cons o rest ih =>
    have hs : cfg.t_cg < o.stat := hl o (List.mem_cons_self _ _)
    by_cases h1 : cfg.t_max_cg < o.stat
    · refine ⟨i, ?_, le_refl _, by omega⟩
      simp [detector_run, detector_step, monitor_step, h1]
    · by_cases h2 : cfg.conse ≤ c + 1
      · refine ⟨i, ?_, le_refl _, by omega⟩
        simp [detector_run, detector_step, monitor_step, h1, hs, h2]
      · have hlen2 : cfg.conse - (c + 1) ≤ rest.length := by
          simp only [List.length_cons] at hlen
          omega
        obtain ⟨j, hj, hij, hjc⟩ := ih (i + 1) (c + 1) (by omega) hlen2
          (fun t ht => hl t (List.mem_cons_of_mem _ ht))
        refine ⟨j, ?_, by omega, by omega⟩
        simp only [detector_run, detector_step, monitor_step, h1, hs, h2, if_true, if_false]
        simpa using hj

theorem detector_run_index (cfg : Config) (px : Pixel) (l : List Observation) (i : Nat)
    (st : DetectorState) : ∀ j ∈ (detector_run cfg px i st l).1, i ≤ j := by
  induction l generalizing i st with
  | nil => simp [detector_run]
  | cons o l ih =>
    intro j hj
    simp only [detector_run] at hj
    split at hj
    · rcases List.mem_cons.mp hj with h | h
      · omega
      · have := ih (i + 1) _ j h
        omega
    · have := ih (i + 1) _ j hj
      omega

theorem detector_step_warmed (cfg : Config) (px : Pixel) (i : Nat) (o : Observation)
    (st : DetectorState) (hst : warmed st i) :
    warmed (detector_step cfg px i o st).1 (i + 1) := by
  cases st with
  | INITIALIZING s =>
    simp only [detector_step]
    split_ifs with h1 h2
    · trivial
    · show min_num_c * n_times ≤ i + 1
      omega
    · trivial
  | MONITORING c =>
    have hi : min_num_c * n_times ≤ i := hst
    simp only [detector_step]
    cases monitor_step cfg c o.stat with
    | none => trivial
    | some c2 =>
      show min_num_c * n_times ≤ i + 1
      omega

theorem detector_run_warmed (cfg : Config) (px : Pixel) (l : List Observation) (i : Nat)
    (st : DetectorState) (hst : warmed st i) :
    warmed (detector_run cfg px i st l).2 (i + l.length) := by
  induction l generalizing i st with
  | nil => exact hst
  | cons o l ih =>
    have h := ih (i + 1) _ (detector_step_warmed cfg px i o st hst)
    have hi : i + 1 + l.length = i + (l.length + 1) := by omega
    simp only [detector_run, List.length_cons]
    rw [← hi]
    exact h

theorem sample_breaks_short :
    confirmed_breaks (Config.mk 10 20 2) (sample_pixel 0 [1, 11, 12]) = [] := by
  simp [confirmed_breaks, sample_pixel, sample_series, min_num_c, n_times]

theorem sample_breaks_water :
    confirmed_breaks (Config.mk 10 20 2) (sample_pixel 1 step_series) = [] := by
  have h : suppressed (sample_pixel 1 step_series) := by
    left
    norm_num [sample_pixel, t_ws]
  unfold confirmed_breaks
  rw [if_pos h]

theorem sample_breaks_init :
    confirmed_breaks (Config.mk 10 20 2) (sample_pixel 0 (List.replicate 16 11)) = [13] := by
  simp [confirmed_breaks, suppressed, sample_pixel, sample_series, t_ws, t_sn, t_cs,
    min_num_c, n_times, List.range_succ, detector_run, detector_step, monitor_step, mini_yrs,
    num_yrs, List.replicate]
  norm_num

theorem sample_breaks_end :
    confirmed_breaks (Config.mk 10 20 2) (sample_pixel 0 (step_series.take 14)) = [] := by
  simp [confirmed_breaks, suppressed, sample_pixel, sample_series, t_ws, t_sn, t_cs,
    min_num_c, n_times, List.range_succ, detector_run, detector_step, monitor_step, mini_yrs,
    num_yrs, step_series]
  norm_num

theorem sample_breaks_tmax :
    confirmed_breaks (Config.mk 10 5 2)
      (sample_pixel 0 [1, 1, 1, 1, 1, 1, 1, 1, 1, 1, 1, 1, 7, 11, 12, 13]) = [12] := by
  simp [confirmed_breaks, suppressed, sample_pixel, sample_series, t_ws, t_sn, t_cs,
    min_num_c, n_times, List.range_succ, detector_run, detector_step, monitor_step, mini_yrs,
    num_yrs]
  norm_num

theorem sample_breaks_conse :
    confirmed_breaks (Config.mk 10 20 0) (sample_pixel 0 step_series) = [13] := by
  simp [confirmed_breaks, suppressed, sample_pixel, sample_series, t_ws, t_sn, t_cs,
    min_num_c, n_times, List.range_succ, detector_run, detector_step, monitor_step, mini_yrs,
    num_yrs, step_series]
  norm_num

theorem sample_monitoring :
    (detector_run (Config.mk 10 20 2) (sample_pixel 0 step_series) 0
        (DetectorState.INITIALIZING 0) ((sample_pixel 0 step_series).obs.take 13)).2 =
      DetectorState.MONITORING 0 := by
  simp [sample_pixel, sample_series, min_num_c, n_times, List.range_succ, detector_run,
    detector_step, monitor_step, mini_yrs, num_yrs, step_series]
  norm_num

theorem sample_not_suppressed : ¬ suppressed (sample_pixel 0 step_series) := by
  norm_num [suppressed, sample_pixel, t_ws, t_sn, t_cs]

/-- C6 as stated fails in six ways, each on a series whose statistic is above
`t_cg = 10` from index `k` on and not before.  Three observations are fewer than
`min_num_c * n_times`, so no break is confirmed (`k = 1`).  A permanent-water
pixel is never tested (`k = 13`).  With `k = 0` the detector is still
INITIALIZING at observation `k + conse - 1`; its first break comes at index 13.
A series that ends one observation after `k = 13` confirms nothing with
`conse = 2`.  With `t_max_cg = 5` below `t_cg` the statistic 7 at index 12 confirms
a break before `k = 13`.  With `conse = 0` the break at index 13 comes after
`k + conse - 1`. -/
theorem break_latency_unguarded :
    ¬ break_latency_property (Config.mk 10 20 2) (sample_pixel 0 [1, 11, 12]) 1 ∧
      ¬ break_latency_property (Config.mk 10 20 2) (sample_pixel 1 step_series) 13 ∧
      ¬ break_latency_property (Config.mk 10 20 2)
          (sample_pixel 0 (List.replicate 16 11)) 0 ∧
      ¬ break_latency_property (Config.mk 10 20 2)
          (sample_pixel 0 (step_series.take 14)) 13 ∧
      ¬ break_latency_property (Config.mk 10 5 2)
          (sample_pixel 0 [1, 1, 1, 1, 1, 1, 1, 1, 1, 1, 1, 1, 7, 11, 12, 13]) 13 ∧
      ¬ break_latency_property (Config.mk 10 20 0) (sample_pixel 0 step_series) 13 := by
  refine ⟨?_, ?_, ?_, ?_, ?_, ?_⟩
  · intro h
    obtain ⟨⟨j, hj, _⟩, _⟩ := h (by decide) (by decide)
    rw [sample_breaks_short] at hj
    cases hj
  · intro h
    obtain ⟨⟨j, hj, _⟩, _⟩ := h (by decide) (by decide)
    rw [sample_breaks_water] at hj
    cases hj
  · intro h
    obtain ⟨⟨j, hj, hle⟩, _⟩ := h (by decide) (by decide)
    rw [sample_breaks_init] at hj
    simp at hj
    subst hj
    simp at hle
  · intro h
    obtain ⟨⟨j, hj, _⟩, _⟩ := h (by decide) (by decide)
    rw [sample_breaks_end] at hj
    cases hj
  · intro h
    obtain ⟨_, hall⟩ := h (by decide) (by decide)
    rw [sample_breaks_tmax] at hall
    have := hall 12 (List.mem_singleton.mpr rfl)
    omega
  · intro h
    obtain ⟨⟨j, hj, hle⟩, _⟩ := h (by decide) (by decide)
    rw [sample_breaks_conse] at hj
    simp at hj
    subst hj
    simp at hle

/-- C6, amended: for a pixel that is not suppressed and whose detector is in
MONITORING when observation `k` arrives (initialization, which needs at least
`min_num_c * n_times` observations over `mini_yrs` years, is over), with `conse`
at least 1, `t_max_cg` not below `t_cg` and at least `conse` observations from
index `k` on: when the statistic is above `t_cg` for every observation from index
`k` onward and not before, a break is confirmed at or before observation
`k + conse - 1` and none is confirmed before index `k`. -/
theorem break_latency (cfg : Config) (px : Pixel) (k : Nat)
    (hsup : ¬ suppressed px)
    (hmon : ∃ c, (detector_run cfg px 0 (DetectorState.INITIALIZING 0) (px.obs.take k)).2 =
      DetectorState.MONITORING c)
    (hconse : 1 ≤ cfg.conse) (hmax : cfg.t_cg ≤ cfg.t_max_cg)
    (hlen : k + cfg.conse ≤ px.obs.length) : break_latency_property cfg px k := by
  intro hbefore hafter
  have hk : (px.obs.take k).length = k := by
    rw [List.length_take]; omega
  obtain ⟨c, hc⟩ := hmon
  have hwarm := detector_run_warmed cfg px (px.obs.take k) 0 (DetectorState.INITIALIZING 0)
    trivial
  rw [hc, hk] at hwarm
  have hobs : min_num_c * n_times ≤ k := by
    have h : min_num_c * n_times ≤ 0 + k := hwarm
    omega
  have hbreaks : confirmed_breaks cfg px =
      (detector_run cfg px 0 (DetectorState.INITIALIZING 0) px.obs).1 := by
    unfold confirmed_breaks
    rw [if_neg hsup, if_neg (by omega)]
  obtain ⟨hq, hcalm⟩ := detector_run_quiet cfg px (px.obs.take k) 0
    (DetectorState.INITIALIZING 0) hmax trivial hbefore
  rw [hc] at hcalm
  have hc0 : c = 0 := hcalm
  subst hc0
  have hsplit : px.obs = px.obs.take k ++ px.obs.drop k := (List.take_append_drop k px.obs).symm
  have hrun : (detector_run cfg px 0 (DetectorState.INITIALIZING 0) px.obs).1 =
      (detector_run cfg px k (DetectorState.MONITORING 0) (px.obs.drop k)).1 := by
    conv_lhs => rw [hsplit, detector_run_append, hq, hc, hk]
    simp
  rw [hbreaks, hrun]
  have hd : cfg.conse - 0 ≤ (px.obs.drop k).length := by
    rw [List.length_drop]; omega
  obtain ⟨j, hj, h1, h2⟩ := detector_run_loud cfg px (px.obs.drop k) k 0 (by omega) hd hafter
  exact ⟨⟨j, hj, by omega⟩, detector_run_index cfg px _ k _⟩

/-- C6 amended, at a concrete pixel: one observation every 40 days, thirteen
quiet ones and three above `t_cg = 10`, `conse = 2`; the detector enters
MONITORING at observation 11 and the break after `k = 13` is confirmed by
observation 14. -/
theorem break_latency_witness :
    (∃ j ∈ confirmed_breaks (Config.mk 10 20 2) (sample_pixel 0 step_series),
        j ≤ 13 + (Config.mk 10 20 2).conse - 1) ∧
      (∀ j ∈ confirmed_breaks (Config.mk 10 20 2) (sample_pixel 0 step_series), 13 ≤ j) :=
  break_latency (Config.mk 10 20 2) (sample_pixel 0 step_series) 13 sample_not_suppressed
    ⟨0, sample_monitoring⟩ (by decide) (by decide) (by decide) (by decide) (by decide)

/-! ## The seek offset -/

theorem pixel_index_inside (lines samples row col : Nat) (hrow : row < lines)
    (hcol : col < samples) : row * samples + col + 1 ≤ lines * samples := by
  have h1 : (row + 1) * samples ≤ lines * samples := Nat.mul_le_mul_right samples hrow
  rw [Nat.add_mul, Nat.one_mul] at h1
  omega

theorem pixel_index_lt_of_row_lt (samples row col row2 col2 : Nat) (hrow : row < row2)
    (hcol : col < samples) : row * samples + col < row2 * samples + col2 := by
  have h1 : (row + 1) * samples ≤ row2 * samples := Nat.mul_le_mul_right samples hrow
  rw [Nat.add_mul, Nat.one_mul] at h1
  omega

theorem pixel_index_defined (lines samples row col : Nat)
    (hfit : lines * samples ≤ INT_MAX) (hrow : row < lines) (hcol : col < samples) :
    pixel_index row samples col = some (row * samples + col) := by
  have h := pixel_index_inside lines samples row col hrow hcol
  unfold pixel_index
  rw [if_pos ⟨by omega, by omega⟩]

theorem seek_offset_defined (lines samples row col w : Nat)
    (hfit : lines * samples ≤ INT_MAX) (hrow : row < lines) (hcol : col < samples)
    (hw : w = 1 ∨ w = 2) :
    seek_offset row samples col w = some ((row * samples + col) * w) := by
  have h := pixel_index_inside lines samples row col hrow hcol
  unfold seek_offset
  rw [pixel_index_defined lines samples row col hfit hrow hcol]
  simp only [Option.map_some', Option.some.injEq]
  unfold INT_MAX at hfit
  unfold SIZE_MOD
  rcases hw with rfl | rfl <;> omega

/-- C11 as stated fails on a raster with more than `INT_MAX` pixels: with 65537
lines of 32768 samples and the pixel at row 65536, column 0 (inside the raster)
the product `row * meta->samples` is `2 ^ 31`, outside `int`, and the offset
sought is not `(row * samples + col) * 2`. -/
theorem seek_offset_int_range :
    65536 < (Input_meta_t.mk 65537 32768).lines ∧ 0 < (Input_meta_t.mk 65537 32768).samples ∧
      (first_loop_body [] (Input_meta_t.mk 65537 32768) 65536 0 0 0 0).offset = none ∧
      (first_loop_body [] (Input_meta_t.mk 65537 32768) 65536 0 0 0 0).offset ≠
        some ((65536 * 32768 + 0) * 2) := by
  decide

/-- C11, amended: for a raster whose number of pixels `lines * samples` is at most
`INT_MAX` and a pixel with `row < lines` and `col < samples`, every access of the
ingestion loops seeks to `(row * samples + col) * w`, with `w = 2` for the seven
value slots and `w = 1` for the mask slot, and that range of `w` bytes ends at or
before `lines * samples * w`; the offset is row-major (a pixel later in row-major
order starts at or after the end of the range of an earlier one), and two
different pixels of the raster get disjoint ranges. -/
theorem seek_offset_row_major (scene_list : List String) (info : Input_meta_t)
    (row col num_scenes loop_number : Nat)
    (hfit : info.lines * info.samples ≤ INT_MAX)
    (hrow : row < info.lines) (hcol : col < info.samples) :
    (∀ a ∈ ingest scene_list info row col num_scenes loop_number,
        a.size = (if a.band = TOTAL_BANDS - 1 then 1 else 2) ∧
        a.offset = seek_offset row info.samples col a.size ∧
        a.offset = some ((row * info.samples + col) * a.size) ∧
        (row * info.samples + col) * a.size + a.size ≤ info.lines * info.samples * a.size) ∧
      (∀ w row2 col2, w = 1 ∨ w = 2 → row2 < info.lines → col2 < info.samples →
        (row < row2 ∨ (row = row2 ∧ col < col2)) →
          (row * info.samples + col) * w + w ≤ (row2 * info.samples + col2) * w) ∧
      (∀ w row2 col2, w = 1 ∨ w = 2 → row2 < info.lines → col2 < info.samples →
        (row, col) ≠ (row2, col2) →
          ∃ o o2, seek_offset row info.samples col w = some o ∧
            seek_offset row2 info.samples col2 w = some o2 ∧
            (o + w ≤ o2 ∨ o2 + w ≤ o)) := by
  have hin := pixel_index_inside info.lines info.samples row col hrow hcol
  have hmajor : ∀ row2 col2, col2 < info.samples →
      (row < row2 ∨ (row = row2 ∧ col < col2)) →
        row * info.samples + col < row2 * info.samples + col2 := by
    intro row2 col2 _ h
    rcases h with h | ⟨h, hc⟩
    · exact pixel_index_lt_of_row_lt info.samples row col row2 col2 h hcol
    · subst h
      omega
  refine ⟨?_, ?_, ?_⟩
  · intro a ha
    have h1 := seek_offset_defined info.lines info.samples row col 1 hfit hrow hcol (Or.inl rfl)
    have h2 := seek_offset_defined info.lines info.samples row col 2 hfit hrow hcol (Or.inr rfl)
    unfold ingest first_loop second_loop at ha
    simp only [List.mem_append, List.mem_flatMap, List.mem_map, List.mem_range] at ha
    rcases ha with ⟨m, _, i, _, k, _, rfl⟩ | ⟨i, _, k, _, rfl⟩
    · unfold first_loop_body
      split
      · rename_i hk
        simp only [hk, if_false, SIZEOF_SHORT, h2, true_and]
        omega
      · rename_i hk
        simp only [not_not] at hk
        simp only [hk, if_true, SIZEOF_UCHAR, h1, true_and]
        omega
    · unfold second_loop_body
      split
      · rename_i hk
        simp only [hk, if_false, SIZEOF_SHORT, h2, true_and]
        omega
      · rename_i hk
        simp only [not_not] at hk
        simp only [hk, if_true, SIZEOF_UCHAR, h1, true_and]
        omega
  · intro w row2 col2 hw _ hcol2 h
    have hlt := hmajor row2 col2 hcol2 h
    rcases hw with rfl | rfl <;> omega
  · intro w row2 col2 hw hrow2 hcol2 hne
    refine ⟨_, _, seek_offset_defined info.lines info.samples row col w hfit hrow hcol hw,
      seek_offset_defined info.lines info.samples row2 col2 w hfit hrow2 hcol2 hw, ?_⟩
    have hcases : (row < row2 ∨ (row = row2 ∧ col < col2)) ∨
        (row2 < row ∨ (row2 = row ∧ col2 < col)) := by
      by_cases hr : row = row2
      · subst hr
        have hc : col ≠ col2 := fun hc => hne (by rw [hc])
        omega
      · omega
    rcases hcases with h | h
    · have hlt := hmajor row2 col2 hcol2 h
      rcases hw with rfl | rfl <;> omega
    · have hlt : row2 * info.samples + col2 < row * info.samples + col := by
        rcases h with h | ⟨h, hc⟩
        · exact pixel_index_lt_of_row_lt info.samples row2 col2 row col h hcol2
        · subst h
          omega
      rcases hw with rfl | rfl <;> omega

/-- C11 amended, at a concrete raster: 2 lines of 3 samples, the last pixel
(row 1, column 2) against the first, in a value slot (`w = 2`). -/
theorem seek_offset_row_major_witness :
    ((Input_meta_t.mk 2 3).lines * (Input_meta_t.mk 2 3).samples ≤ INT_MAX ∧
        1 < (Input_meta_t.mk 2 3).lines ∧ 2 < (Input_meta_t.mk 2 3).samples) ∧
      ∃ o o2, seek_offset 1 (Input_meta_t.mk 2 3).samples 2 2 = some o ∧
        seek_offset 0 (Input_meta_t.mk 2 3).samples 0 2 = some o2 ∧
        (o + 2 ≤ o2 ∨ o2 + 2 ≤ o) :=
  ⟨⟨by decide, by decide, by decide⟩,
    (seek_offset_row_major ["LE70390032010263EDC00"] (Input_meta_t.mk 2 3) 1 2 1 0
      (by decide) (by decide) (by decide)).2.2 2 0 0 (Or.inr rfl) (by decide) (by decide)
      (by decide)⟩

/-! ## The file names of one scene -/

theorem string_append_left_cancel (s a b : String) (h : s ++ a = s ++ b) : a = b := by
  have h2 := congrArg String.data h
  simp only [String.data_append] at h2
  exact String.ext (List.append_cancel_left h2)

theorem band_filename_eq_append (scene : String) (k : Nat) :
    band_filename scene k = scene ++ band_suffix (decide (landsat_number scene = 8)) k := by
  unfold band_filename band_suffix
  by_cases h : landsat_number scene = 8
  · simp only [h, ne_eq, not_true_eq_false, if_false, decide_True, Bool.true_eq_false]
    split_ifs <;> simp [String.append_assoc]
  · simp only [h, ne_eq, not_false_eq_true, if_true, decide_False]
    split_ifs <;> simp [String.append_assoc]

theorem band_suffix_nodup (landsat8 : Bool) :
    ((List.range TOTAL_BANDS).map (band_suffix landsat8)).Nodup := by
  cases landsat8 <;> decide

/-- C12: for every scene name, whether its Landsat number is 8 or not, the eight
band slots give eight pairwise different file names; slot 7 is the quality mask
`_cfmask`, slot 5 the thermal band (`_toa_band6`, or `_toa_band10` for Landsat
8), and the slots 0, 1, 2, 3, 4, 6 are the surface-reflectance bands
1, 2, 3, 4, 5, 7 (or 2, 3, 4, 5, 6, 7 for Landsat 8).  Both families occur: the
third character of the scene name decides. -/
theorem band_filename_record (scene : String) :
    ((List.range TOTAL_BANDS).map (band_filename scene)).Nodup ∧
      band_filename scene 7 = scene ++ "_cfmask.img" ∧
      band_filename scene 5 =
        (if landsat_number scene = 8 then scene ++ "_toa_band10.img"
         else scene ++ "_toa_band6.img") ∧
      [0, 1, 2, 3, 4, 6].map (band_filename scene) =
        (if landsat_number scene = 8 then [2, 3, 4, 5, 6, 7] else [1, 2, 3, 4, 5, 7]).map
          (fun b => scene ++ "_sr_band" ++ toString b ++ ".img") ∧
      landsat_number "LC80390032010263EDC00" = 8 ∧
      landsat_number "LE70390032010263EDC00" = 7 := by
  refine ⟨?_, ?_, ?_, ?_, by decide, by decide⟩
  · have hmap : (List.range TOTAL_BANDS).map (band_filename scene) =
        ((List.range TOTAL_BANDS).map
          (band_suffix (decide (landsat_number scene = 8)))).map (fun x => scene ++ x) := by
      rw [List.map_map]
      exact List.map_congr_left (fun k _ => band_filename_eq_append scene k)
    rw [hmap]
    exact List.Nodup.map (fun a b h => string_append_left_cancel scene a b h)
      (band_suffix_nodup _)
  · unfold band_filename
    by_cases h : landsat_number scene = 8 <;> simp [h]
  · unfold band_filename
    by_cases h : landsat_number scene = 8 <;> simp [h]
  · unfold band_filename
    by_cases h : landsat_number scene = 8 <;> simp [h]

/-! ## The read loop of the scene list -/

theorem scan_scene_list_eq (n : Nat) (names : List String) :
    scan_scene_list n names = if n ≤ names.length then some (names.take n) else none := by
  induction n generalizing names with
  | zero => simp [scan_scene_list]
  | succ n ih =>
    cases names with
    | nil => simp [scan_scene_list]
    | cons name rest =>
      rw [scan_scene_list, ih]
      by_cases h : n ≤ rest.length <;> simp [h]

/-- C13: when the read loop is reached (`get_args` and the allocation succeeded,
`scene_list.txt` was opened) and the file holds fewer than `num_scenes` names,
`main` returns the error "Reading scene_list file" and touches no band file;
`num_scenes` is `MAX_SCENE_LIST` when the file existed beforehand.  The loop
ends normally only when the file holds at least `num_scenes` names, and then it
has stored exactly the first `num_scenes` of them: the count is never lowered to
the number of names read. -/
theorem scene_list_short_read (w : World) (row col : Nat) (names : List String)
    (hargs : w.get_args = some (row, col)) (halloc : w.scene_list_alloc = true)
    (hopen : w.scene_list_txt = some names) (hshort : names.length < num_scenes_of w) :
    main w = RETURN_ERROR "Reading scene_list file" [] ∧
      (w.scene_list_exists = true → num_scenes_of w = w.MAX_SCENE_LIST) ∧
      (∀ n l, scan_scene_list n names = some l →
        n ≤ names.length ∧ l = names.take n ∧ l.length = n) := by
  refine ⟨?_, ?_, ?_⟩
  · have hscan : scan_scene_list (num_scenes_of w) names = none := by
      rw [scan_scene_list_eq, if_neg (by omega)]
    unfold main
    simp [hargs, halloc, hopen, hscan]
  · intro h
    simp [num_scenes_of, h]
  · intro n l h
    rw [scan_scene_list_eq] at h
    by_cases hn : n ≤ names.length
    · rw [if_pos hn] at h
      have hl : l = names.take n := (Option.some.inj h).symm
      refine ⟨hn, hl, ?_⟩
      rw [hl, List.length_take]
      omega
    · rw [if_neg hn] at h
      cases h

/-- C13 at a concrete run: `MAX_SCENE_LIST = 3` and a `scene_list.txt` that
holds one name. -/
theorem scene_list_short_read_witness :
    ["LE70390032010263EDC00"].length < num_scenes_of (sample_world 3 ["LE70390032010263EDC00"] 0) ∧
      main (sample_world 3 ["LE70390032010263EDC00"] 0) =
        RETURN_ERROR "Reading scene_list file" [] :=
  ⟨by decide,
    (scene_list_short_read (sample_world 3 ["LE70390032010263EDC00"] 0) 0 0
      ["LE70390032010263EDC00"] rfl rfl rfl (by decide)).1⟩

/-! ## The detection band list -/

/-- C14 as stated fails at the last entry: 7 is in `lasso_band_list` and is not
below `TOTAL_BANDS - 1`, the number of columns of `buf`. -/
theorem lasso_band_list_last_entry :
    7 ∈ lasso_band_list ∧ ¬ (7 < TOTAL_BANDS - 1) := by
  decide

/-- C14, amended: `lasso_band_list` has exactly `NUM_LASSO_BANDS = 5` entries,
strictly increasing and so pairwise distinct; every entry is at most
`TOTAL_BANDS - 1`, and every entry but the last one, 7, is below
`TOTAL_BANDS - 1`. -/
theorem lasso_band_list_entries :
    lasso_band_list.length = NUM_LASSO_BANDS ∧ NUM_LASSO_BANDS = 5 ∧
      List.Pairwise (fun a b => a < b) lasso_band_list ∧ lasso_band_list.Nodup ∧
      (∀ b ∈ lasso_band_list, b ≤ TOTAL_BANDS - 1) ∧
      (∀ b ∈ lasso_band_list, b ≠ 7 → b < TOTAL_BANDS - 1) := by
  decide

end Ccdc
